import Mathlib

/-!
Shallow embedding of `python/sglang/srt/disaggregation/trace_utils.py`:
a request-scoped event tracer built on the standard `logging` facility.
Pure record construction (`_log_event`, `range`, `mark`) is modelled as
Lean functions on rational timestamps; the mutable logging facility
(loggers, handlers, file sinks) and the process-wide singleton are
modelled by explicit state passing. A sink line is modelled as the
emitted record value (the JSON dump of a dict preserves exactly the
keys and null values that the claims talk about).
-/

set_option autoImplicit false

/-- A Python dict with string keys and string values, in insertion order,
as used for the `extra_data` argument of the tracer. -/
abbrev PyDict := List (String × String)

/-- A JSON-serializable value as it appears in an emitted event record. -/
inductive JVal where
  | null
  | num (q : ℚ)
  | str (s : String)
  | dict (d : PyDict)
  deriving DecidableEq, Repr

/-- An emitted event record: the `event_record` dict of `_log_event`,
as an ordered list of key/value pairs (Python dicts preserve insertion
order, and `json.dumps` serializes the keys in that order). -/
abbrev ERecord := List (String × JVal)

/-- Lookup of a key in an emitted record; `none` means the key is absent
from the record (hence absent from the serialized JSON line). -/
def recGet : ERecord → String → Option JVal
  | [], _ => none
  | (k, v) :: rest, key => if k = key then some v else recGet rest key

/-- Lookup of a key in a Python dict. -/
def dictGet : PyDict → String → Option String
  | [], _ => none
  | (k, v) :: rest, key => if k = key then some v else dictGet rest key

/-- Python dict item assignment `d[k] = v`: replaces the value in place
when the key is present (keeping its position), else appends the pair. -/
def dictSet : PyDict → String → String → PyDict
  | [], k, v => [(k, v)]
  | (k2, v2) :: rest, k, v =>
      if k2 = k then (k2, v) :: rest else (k2, v2) :: dictSet rest k v

/-- Python truthiness of an `Optional[Dict]`: `None` and the empty dict
are falsy, a non-empty dict is truthy (the `if extra_data:` test of
`_log_event` and the `extra_data or \x7b\x7d` test of `range`). -/
def dictTruthy : Option PyDict → Bool
  | none => false
  | some l => !l.isEmpty

/-- Contents of `extra_data or \x7b\x7d`: the dict contents when supplied,
else empty (for a supplied empty dict the expression yields a fresh
empty dict; the contents coincide, aliasing is tracked in `range_run`). -/
def pyOrEmpty : Option PyDict → PyDict
  | none => []
  | some l => l

/-- Python `round(y, ndigits)`, on rationals: the fractional tie behavior
of float banker rounding is abstracted by Mathlib `round`; every claim
compares the same rounding function on both sides. -/
def pyRound (y : ℚ) (ndigits : ℕ) : ℚ :=
  ((round (y * 10 ^ ndigits) : ℤ) : ℚ) / 10 ^ ndigits

/-- Abstract rendering of `datetime.fromtimestamp(timestamp).isoformat()`:
a derived string determined by the timestamp. No claim depends on the
concrete format, only on the field being a derived string. -/
def timestampIso (t : ℚ) : String := toString t

/-- Value stored under `duration_ms`: `round(duration * 1000, 3)` when a
duration is supplied, JSON null otherwise (source line 57). -/
def durationMsVal : Option ℚ → JVal
  | some d => JVal.num (pyRound (d * 1000) 3)
  | none => JVal.null

/-- `_EventContext._log_event` (source lines 47-63): builds the event
record dict in insertion order; the `extra_data` key is added only when
`extra_data` is truthy. -/
def log_event (request_id event_name event_type : String) (timestamp : ℚ)
    (duration : Option ℚ) (extra_data : Option PyDict) : ERecord :=
  [("request_id", JVal.str request_id),
   ("event_name", JVal.str event_name),
   ("event_type", JVal.str event_type),
   ("timestamp", JVal.num timestamp),
   ("timestamp_iso", JVal.str (timestampIso timestamp)),
   ("duration_ms", durationMsVal duration)]
  ++ (if dictTruthy extra_data then [("extra_data", JVal.dict (extra_data.getD []))] else [])

/-- A fault raised by the block wrapped in `range`. `isException` records
whether the object is an instance of `Exception` (the class caught at
source line 79); faults such as `KeyboardInterrupt` or `SystemExit`
derive from `BaseException` only and are not instances of `Exception`.
`msg` is `str(e)` and `ty` the type name; both travel unchanged with the
fault value. -/
structure Fault where
  ty : String
  msg : String
  isException : Bool
  deriving DecidableEq, Repr

/-- Observable outcome of one `range` invocation: the records emitted in
order, the fault propagated to the caller (none on normal completion),
and the final contents of the caller-supplied `extra_data` mapping
(tracking the in-place mutation at source line 81, which aliases the
caller object exactly when the supplied dict is truthy). -/
structure RangeResult where
  records : List ERecord
  raised : Option Fault
  callerExtra : Option PyDict
  deriving DecidableEq, Repr

/-- `_EventContext.range` (source lines 65-99). `blockFault` is the fault
raised by the wrapped block (`none` when the block completes normally);
`tStart`, `tErr`, `tEnd` are the successive values of `time.time()` at
lines 67, 86 and 91. The `except Exception` clause catches only faults
with `isException`; the `finally` clause emits the `end` record on every
path; the bare `raise` re-raises the caught fault unchanged. -/
def range_run (request_id event_name : String) (extra_data : Option PyDict)
    (blockFault : Option Fault) (tStart tErr tEnd : ℚ) : RangeResult :=
  let startRec := log_event request_id event_name "start" tStart none extra_data
  match blockFault with
  | none =>
      { records := [startRec,
          log_event request_id event_name "end" tEnd (some (tEnd - tStart)) extra_data],
        raised := none,
        callerExtra := extra_data }
  | some f =>
      if f.isException then
        let errorExtra := dictSet (pyOrEmpty extra_data) "error" f.msg
        let extraAfter : Option PyDict :=
          if dictTruthy extra_data then some errorExtra else extra_data
        { records := [startRec,
            log_event request_id event_name "error" tErr none (some errorExtra),
            log_event request_id event_name "end" tEnd (some (tEnd - tStart)) extraAfter],
          raised := some f,
          callerExtra := extraAfter }
      else
        { records := [startRec,
            log_event request_id event_name "end" tEnd (some (tEnd - tStart)) extra_data],
          raised := some f,
          callerExtra := extra_data }

/-- `_EventContext.mark` (source lines 101-108): one `instant` record with
no duration. -/
def mark_run (request_id event_name : String) (extra_data : Option PyDict) (t : ℚ) : ERecord :=
  log_event request_id event_name "instant" t none extra_data

/-- Lookup of a key inside the `extra_data` object of a record, when that
record carries an `extra_data` key holding a dict. -/
def recExtraGet (r : ERecord) (key : String) : Option String :=
  match recGet r "extra_data" with
  | some (JVal.dict d) => dictGet d key
  | _ => none

theorem recGet_log_event_extra (rid nm ty : String) (t : ℚ) (d : Option ℚ)
    (x : Option PyDict) :
    recGet (log_event rid nm ty t d x) "extra_data"
      = if dictTruthy x then some (JVal.dict (x.getD [])) else none := by
  cases hx : dictTruthy x <;> simp [log_event, hx, recGet]

theorem dictSet_ne_nil (d : PyDict) (k v : String) : dictSet d k v ≠ [] := by
  cases d with
  | nil => simp [dictSet]
  | cons p rest => cases p; simp only [dictSet]; split <;> simp

theorem dictGet_dictSet_self (d : PyDict) (k v : String) :
    dictGet (dictSet d k v) k = some v := by
  induction d with
  | nil => simp [dictSet, dictGet]
  | cons p rest ih =>
      cases p with
      | mk k2 v2 =>
          by_cases h : k2 = k
          · simp [dictSet, dictGet, h]
          · simp [dictSet, dictGet, h, ih]

/-- A bound output handler: `logging.FileHandler(log_file)` with the bare
`%(message)s` formatter, identified by the sink path it appends to. -/
structure Handler where
  sink : String
  deriving DecidableEq, Repr

/-- The mutable state of one logger object of the `logging` facility:
its handler list, numeric level and propagate flag. A fresh logger has
no handlers, level `NOTSET = 0` and `propagate = True`. -/
structure LoggerState where
  handlers : List Handler
  level : ℕ
  propagate : Bool
  deriving DecidableEq, Repr

def freshLogger : LoggerState := { handlers := [], level := 0, propagate := true }

/-- The `logging` facility registry: logger name to logger state. As in
Python, `getLogger(name)` always yields the same logger object for the
same name, so a reference to a logger is modelled by its name. -/
abbrev LoggingState := List (String × LoggerState)

def getLoggerState : LoggingState → String → LoggerState
  | [], _ => freshLogger
  | (n, lg) :: rest, name => if n = name then lg else getLoggerState rest name

def setLoggerState : LoggingState → String → LoggerState → LoggingState
  | [], name, lg => [(name, lg)]
  | (n, l) :: rest, name, lg =>
      if n = name then (n, lg) :: rest else (n, l) :: setLoggerState rest name lg

/-- The file system seen through the sinks: path to list of appended
lines, one emitted record per line. -/
abbrev Sinks := List (String × List ERecord)

def sinkLines : Sinks → String → List ERecord
  | [], _ => []
  | (p, lines) :: rest, path => if p = path then lines else sinkLines rest path

def appendLine : Sinks → String → ERecord → Sinks
  | [], path, r => [(path, [r])]
  | (p, lines) :: rest, path, r =>
      if p = path then (p, lines ++ [r]) :: rest else (p, lines) :: appendLine rest path r

/-- `logger.info(msg)` (source line 63): when `INFO = 20` passes the
logger level, each bound handler appends the message as one line to its
sink. Propagation to ancestor loggers is not modelled as a write; the
`propagate` flag itself is tracked in `LoggerState`. -/
def logger_info (ls : LoggingState) (name : String) (rec : ERecord) (sinks : Sinks) : Sinks :=
  let lg := getLoggerState ls name
  if lg.level ≤ 20 then
    lg.handlers.foldl (fun s h => appendLine s h.sink rec) sinks
  else sinks

/-- Successive emissions of a list of records through one logger. -/
def emitAll (ls : LoggingState) (name : String) (recs : List ERecord) (sinks : Sinks) : Sinks :=
  recs.foldl (fun s r => logger_info ls name r s) sinks

/-- The `_EventContext` object state: its `log_file` and `logger_name`
attributes, the `_initialized` flag (field `inited`), and the logger
object currently referenced by `self.logger` (field `loggerRef`, the
name under which it was obtained from `getLogger`). -/
structure EventContext where
  log_file : String
  logger_name : String
  inited : Bool
  loggerRef : String
  deriving DecidableEq, Repr

/-- `_EventContext._setup_logger` (source lines 17-32): returns early when
already initialized; else fetches the logger for `logger_name`, sets its
level to `INFO`, and only when that logger has no handlers binds one
`FileHandler(log_file)` and disables propagation. -/
def setup_logger (ctx : EventContext) (ls : LoggingState) : EventContext × LoggingState :=
  if ctx.inited then (ctx, ls)
  else
    let name := ctx.logger_name
    let lg0 := getLoggerState ls name
    let lg1 : LoggerState := { lg0 with level := 20 }
    let lg2 : LoggerState :=
      if lg1.handlers.isEmpty then
        { lg1 with handlers := [{ sink := ctx.log_file }], propagate := false }
      else lg1
    ({ ctx with inited := true, loggerRef := name }, setLoggerState ls name lg2)

/-- `_EventContext.__init__` (source lines 11-15): stores the arguments,
clears the flag and runs `_setup_logger`. -/
def mkEventContext (log_file logger_name : String) (ls : LoggingState) :
    EventContext × LoggingState :=
  setup_logger
    { log_file := log_file, logger_name := logger_name, inited := false,
      loggerRef := logger_name } ls

/-- `_EventContext.reconfigure` (source lines 34-45): updates the truthy
arguments (`if log_file:` is false for `None` and for the empty string),
removes every handler from the logger currently referenced by
`self.logger`, clears the flag and re-runs `_setup_logger`. -/
def reconfigure (ctx : EventContext) (ls : LoggingState)
    (log_file logger_name : Option String) : EventContext × LoggingState :=
  let ctx1 := match log_file with
    | some f => if f = "" then ctx else { ctx with log_file := f }
    | none => ctx
  let ctx2 := match logger_name with
    | some n => if n = "" then ctx1 else { ctx1 with logger_name := n }
    | none => ctx1
  let lg := getLoggerState ls ctx2.loggerRef
  let ls1 := setLoggerState ls ctx2.loggerRef { lg with handlers := [] }
  setup_logger { ctx2 with inited := false } ls1

/-- A `mark` call on a context, observed through the logging facility:
the instant record is emitted via `logger.info` on `self.logger`. -/
def mark_emit (ctx : EventContext) (ls : LoggingState) (sinks : Sinks)
    (rid nm : String) (x : Option PyDict) (t : ℚ) : Sinks :=
  emitAll ls ctx.loggerRef [mark_run rid nm x t] sinks

/-- A `range` call on a context, observed through the logging facility:
each record of the invocation is emitted in order via `logger.info`. -/
def range_emit (ctx : EventContext) (ls : LoggingState) (sinks : Sinks)
    (rid nm : String) (x : Option PyDict) (fault : Option Fault) (t0 t1 t2 : ℚ) : Sinks :=
  emitAll ls ctx.loggerRef (range_run rid nm x fault t0 t1 t2).records sinks

/-- Default arguments of the module (source lines 11, 113, 120). -/
def defaultLogFile : String := "events.log"

def defaultLoggerName : String := "event_logger"

/-- `get_event_logger` (source lines 113-118) acting on the nullable
global `_event_context`: returns the stored context unchanged when one
exists, else constructs one and stores it. Result: the returned context,
the new global slot, the new logging state. -/
def get_event_logger (g : Option EventContext) (ls : LoggingState)
    (log_file logger_name : String) : EventContext × Option EventContext × LoggingState :=
  match g with
  | some ctx => (ctx, some ctx, ls)
  | none =>
      let p := mkEventContext log_file logger_name ls
      (p.1, some p.1, p.2)

/-- `init_event_logger` (source lines 120-124): unconditionally constructs
a fresh context and stores it in the global slot. -/
def init_event_logger (ls : LoggingState) (log_file logger_name : String) :
    EventContext × Option EventContext × LoggingState :=
  let p := mkEventContext log_file logger_name ls
  (p.1, some p.1, p.2)

theorem getLoggerState_setLoggerState_self (ls : LoggingState) (name : String)
    (lg : LoggerState) : getLoggerState (setLoggerState ls name lg) name = lg := by
  induction ls with
  | nil => simp [setLoggerState, getLoggerState]
  | cons p rest ih =>
      cases p with
      | mk n l =>
          by_cases h : n = name
          · simp [setLoggerState, getLoggerState, h]
          · simp [setLoggerState, getLoggerState, h, ih]

theorem sinkLines_appendLine_self (s : Sinks) (p : String) (r : ERecord) :
    sinkLines (appendLine s p r) p = sinkLines s p ++ [r] := by
  induction s with
  | nil => simp [appendLine, sinkLines]
  | cons q rest ih =>
      cases q with
      | mk q0 lines =>
          by_cases h : q0 = p
          · simp [appendLine, sinkLines, h]
          · simp [appendLine, sinkLines, h, ih]

theorem sinkLines_appendLine_ne (s : Sinks) (p q : String) (r : ERecord)
    (h : q ≠ p) : sinkLines (appendLine s p r) q = sinkLines s q := by
  induction s with
  | nil => simp [appendLine, sinkLines, Ne.symm h]
  | cons e rest ih =>
      cases e with
      | mk e0 lines =>
          by_cases h2 : e0 = p
          · subst h2
            simp [appendLine, sinkLines, Ne.symm h]
          · simp [appendLine, sinkLines, h2, ih]

theorem sinkLines_foldl_handlers_ne (hs : List Handler) (r : ERecord) (p : String) :
    ∀ s : Sinks, (∀ h ∈ hs, h.sink ≠ p) →
      sinkLines (hs.foldl (fun s h => appendLine s h.sink r) s) p = sinkLines s p := by
  induction hs with
  | nil => intro s _; simp
  | cons h0 rest ih =>
      intro s hnone
      have hh : h0.sink ≠ p := hnone h0 (List.mem_cons_self h0 rest)
      have hrest : ∀ h ∈ rest, h.sink ≠ p := fun h hm => hnone h (List.mem_cons_of_mem h0 hm)
      simp only [List.foldl_cons]
      rw [ih (appendLine s h0.sink r) hrest, sinkLines_appendLine_ne s h0.sink p r
        (fun hq => hh hq.symm)]

theorem sinkLines_logger_info_single (ls : LoggingState) (name q : String)
    (r : ERecord) (s : Sinks)
    (hlg : (getLoggerState ls name).handlers = [{ sink := q }])
    (hlv : (getLoggerState ls name).level ≤ 20) :
    sinkLines (logger_info ls name r s) q = sinkLines s q ++ [r] := by
  simp [logger_info, hlg, hlv, sinkLines_appendLine_self]

theorem sinkLines_logger_info_ne (ls : LoggingState) (name : String) (r : ERecord)
    (s : Sinks) (p : String)
    (hp : ∀ h ∈ (getLoggerState ls name).handlers, h.sink ≠ p) :
    sinkLines (logger_info ls name r s) p = sinkLines s p := by
  by_cases hlv : (getLoggerState ls name).level ≤ 20
  · simp only [logger_info, if_pos hlv]
    exact sinkLines_foldl_handlers_ne _ r p s hp
  · simp [logger_info, hlv]

theorem sinkLines_emitAll_single (ls : LoggingState) (name q : String)
    (recs : List ERecord)
    (hlg : (getLoggerState ls name).handlers = [{ sink := q }])
    (hlv : (getLoggerState ls name).level ≤ 20) :
    ∀ s : Sinks, sinkLines (emitAll ls name recs s) q = sinkLines s q ++ recs := by
  induction recs with
  | nil => intro s; simp [emitAll]
  | cons r rest ih =>
      intro s
      have step : emitAll ls name (r :: rest) s = emitAll ls name rest (logger_info ls name r s) := by
        simp [emitAll]
      rw [step, ih (logger_info ls name r s),
        sinkLines_logger_info_single ls name q r s hlg hlv, List.append_assoc]
      rfl

theorem sinkLines_emitAll_ne (ls : LoggingState) (name : String)
    (recs : List ERecord) (p : String)
    (hp : ∀ h ∈ (getLoggerState ls name).handlers, h.sink ≠ p) :
    ∀ s : Sinks, sinkLines (emitAll ls name recs s) p = sinkLines s p := by
  induction recs with
  | nil => intro s; simp [emitAll]
  | cons r rest ih =>
      intro s
      have step : emitAll ls name (r :: rest) s = emitAll ls name rest (logger_info ls name r s) := by
        simp [emitAll]
      rw [step, ih (logger_info ls name r s), sinkLines_logger_info_ne ls name r s p hp]

@[simp]
theorem recGet_log_event_request_id (rid nm ty : String) (t : ℚ) (d : Option ℚ)
    (x : Option PyDict) :
    recGet (log_event rid nm ty t d x) "request_id" = some (JVal.str rid) := rfl

@[simp]
theorem recGet_log_event_event_name (rid nm ty : String) (t : ℚ) (d : Option ℚ)
    (x : Option PyDict) :
    recGet (log_event rid nm ty t d x) "event_name" = some (JVal.str nm) := rfl

@[simp]
theorem recGet_log_event_event_type (rid nm ty : String) (t : ℚ) (d : Option ℚ)
    (x : Option PyDict) :
    recGet (log_event rid nm ty t d x) "event_type" = some (JVal.str ty) := rfl

@[simp]
theorem recGet_log_event_timestamp (rid nm ty : String) (t : ℚ) (d : Option ℚ)
    (x : Option PyDict) :
    recGet (log_event rid nm ty t d x) "timestamp" = some (JVal.num t) := rfl

@[simp]
theorem recGet_log_event_duration (rid nm ty : String) (t : ℚ) (d : Option ℚ)
    (x : Option PyDict) :
    recGet (log_event rid nm ty t d x) "duration_ms" = some (durationMsVal d) := rfl

theorem dictTruthy_dictSet (d : PyDict) (k v : String) :
    dictTruthy (some (dictSet d k v)) = true := by
  cases hd : dictSet d k v with
  | nil => exact absurd hd (dictSet_ne_nil d k v)
  | cons a l => simp [dictTruthy, hd]

theorem dictTruthy_of_ne_nil (l : PyDict) (hl : l ≠ []) :
    dictTruthy (some l) = true := by
  cases l with
  | nil => exact absurd rfl hl
  | cons a rest => simp [dictTruthy]

theorem log_event_type_ne (rid nm ty ty2 : String) (t : ℚ) (d : Option ℚ)
    (x : Option PyDict) (h : ty ≠ ty2) :
    recGet (log_event rid nm ty t d x) "event_type" ≠ some (JVal.str ty2) := by
  simp [h]

/-- C1: for every `range(request_id, event_name, extra_data)` call whose
wrapped block completes without raising, exactly two records are emitted,
first a `start` record then an `end` record, both carrying the same
`request_id` and `event_name`, and the `duration_ms` of the `end` record
equals `round((end.timestamp - start.timestamp) * 1000, 3)` where the two
timestamps are those of the two emitted records. -/
theorem C1_range_success_pairing (rid nm : String) (extra : Option PyDict) (t0 t1 t2 : ℚ) :
    ((range_run rid nm extra none t0 t1 t2).records.map (fun r => recGet r "event_type"))
        = [some (JVal.str "start"), some (JVal.str "end")] ∧
    ((range_run rid nm extra none t0 t1 t2).records.map (fun r => recGet r "request_id"))
        = [some (JVal.str rid), some (JVal.str rid)] ∧
    ((range_run rid nm extra none t0 t1 t2).records.map (fun r => recGet r "event_name"))
        = [some (JVal.str nm), some (JVal.str nm)] ∧
    recGet ((range_run rid nm extra none t0 t1 t2).records.getD 0 []) "timestamp"
        = some (JVal.num t0) ∧
    recGet ((range_run rid nm extra none t0 t1 t2).records.getD 1 []) "timestamp"
        = some (JVal.num t2) ∧
    recGet ((range_run rid nm extra none t0 t1 t2).records.getD 1 []) "duration_ms"
        = some (JVal.num (pyRound ((t2 - t0) * 1000) 3)) ∧
    (range_run rid nm extra none t0 t1 t2).raised = none :=
  ⟨rfl, rfl, rfl, rfl, rfl, rfl, rfl⟩

/-- C6: for every emission via `_log_event` (hence via `range` and
`mark`), when no duration is supplied the record carries the
`duration_ms` key with value JSON null, and when no `extra_data` is
supplied the record carries no `extra_data` key at all. -/
theorem C6_absent_field_serialization (rid nm ty : String) (t : ℚ) (d : Option ℚ)
    (x : Option PyDict) :
    recGet (log_event rid nm ty t none x) "duration_ms" = some JVal.null ∧
    recGet (log_event rid nm ty t d none) "extra_data" = none ∧
    recGet (mark_run rid nm none t) "extra_data" = none ∧
    recGet (mark_run rid nm x t) "duration_ms" = some JVal.null :=
  ⟨rfl, rfl, rfl, rfl⟩

/-- C5 counterexample: the claim says records with event type `start`,
`error` or `instant` do not carry a `duration_ms` field, but an `instant`
record emitted by `mark` does carry the `duration_ms` key (with value
JSON null), because `_log_event` always puts the key in the record. -/
theorem C5_counterexample :
    recGet (mark_run "r5" "op5" none 7) "event_type" = some (JVal.str "instant") ∧
    recGet (mark_run "r5" "op5" none 7) "duration_ms" = some JVal.null :=
  ⟨rfl, rfl⟩

/-- C5 amended: every emitted record carries the `duration_ms` key; its
value is a number equal to `round((end_timestamp - start_timestamp) *
1000, 3)` exactly on `end` records and JSON null on every other record. -/
theorem C5_amended_duration_only_on_end (rid nm : String) (extra : Option PyDict)
    (fault : Option Fault) (t0 t1 t2 : ℚ) (r : ERecord)
    (hr : r ∈ (range_run rid nm extra fault t0 t1 t2).records) :
    ((recGet r "event_type" = some (JVal.str "end") ∧
        recGet r "duration_ms" = some (JVal.num (pyRound ((t2 - t0) * 1000) 3))) ∨
      (recGet r "event_type" ≠ some (JVal.str "end") ∧
        recGet r "duration_ms" = some JVal.null)) ∧
    recGet (mark_run rid nm extra t0) "event_type" = some (JVal.str "instant") ∧
    recGet (mark_run rid nm extra t0) "duration_ms" = some JVal.null := by
  refine ⟨?_, rfl, rfl⟩
  rcases fault with _ | ⟨ty, msg, isE⟩
  · simp only [range_run, List.mem_cons, List.not_mem_nil, or_false] at hr
    rcases hr with rfl | rfl
    · right; exact ⟨log_event_type_ne _ _ _ _ _ _ _ (by decide), rfl⟩
    · left; exact ⟨rfl, rfl⟩
  · cases isE
    · simp only [range_run, Bool.false_eq_true, if_false, List.mem_cons,
        List.not_mem_nil, or_false] at hr
      rcases hr with rfl | rfl
      · right; exact ⟨log_event_type_ne _ _ _ _ _ _ _ (by decide), rfl⟩
      · left; exact ⟨rfl, rfl⟩
    · simp only [range_run, if_true, List.mem_cons, List.not_mem_nil, or_false] at hr
      rcases hr with rfl | rfl | rfl
      · right; exact ⟨log_event_type_ne _ _ _ _ _ _ _ (by decide), rfl⟩
      · right; exact ⟨log_event_type_ne _ _ _ _ _ _ _ (by decide), rfl⟩
      · left; exact ⟨rfl, rfl⟩

/-- C5 amended, witness at a concrete input. -/
theorem C5_amended_duration_only_on_end_witness :
    ((recGet (log_event "w5" "n5" "start" 0 none none) "event_type" = some (JVal.str "end") ∧
        recGet (log_event "w5" "n5" "start" 0 none none) "duration_ms"
          = some (JVal.num (pyRound ((0 - 0) * 1000) 3))) ∨
      (recGet (log_event "w5" "n5" "start" 0 none none) "event_type" ≠ some (JVal.str "end") ∧
        recGet (log_event "w5" "n5" "start" 0 none none) "duration_ms" = some JVal.null)) ∧
    recGet (mark_run "w5" "n5" none 0) "event_type" = some (JVal.str "instant") ∧
    recGet (mark_run "w5" "n5" none 0) "duration_ms" = some JVal.null :=
  C5_amended_duration_only_on_end "w5" "n5" none none 0 0 0
    (log_event "w5" "n5" "start" 0 none none) (List.mem_cons_self _ _)

/-- C2 counterexample: the claim quantifies over every raising block, but
a fault that is not an instance of `Exception` (here a
`KeyboardInterrupt`) escapes the `except Exception` clause of `range`:
only two records (start, end) are emitted, not three. -/
theorem C2_counterexample :
    ((range_run "r2" "op2" none
        (some { ty := "KeyboardInterrupt", msg := "stop", isException := false })
        0 1 2).records.map (fun r => recGet r "event_type"))
      = [some (JVal.str "start"), some (JVal.str "end")] ∧
    (range_run "r2" "op2" none
        (some { ty := "KeyboardInterrupt", msg := "stop", isException := false })
        0 1 2).records.length ≠ 3 :=
  ⟨rfl, by decide⟩

/-- C2 amended: for every call to `range` whose wrapped block raises an
instance of `Exception`, exactly three records are appended in the order
start, error, end, all sharing `request_id` and `event_name`; the error
record carries an `error` key inside `extra_data` equal to the string
form of the fault; and the identical fault value is re-raised to the
caller. -/
theorem C2_amended_error_triple (rid nm : String) (extra : Option PyDict) (f : Fault)
    (hf : f.isException = true) (t0 t1 t2 : ℚ) :
    ((range_run rid nm extra (some f) t0 t1 t2).records.map (fun r => recGet r "event_type"))
        = [some (JVal.str "start"), some (JVal.str "error"), some (JVal.str "end")] ∧
    ((range_run rid nm extra (some f) t0 t1 t2).records.map (fun r => recGet r "request_id"))
        = [some (JVal.str rid), some (JVal.str rid), some (JVal.str rid)] ∧
    ((range_run rid nm extra (some f) t0 t1 t2).records.map (fun r => recGet r "event_name"))
        = [some (JVal.str nm), some (JVal.str nm), some (JVal.str nm)] ∧
    recExtraGet ((range_run rid nm extra (some f) t0 t1 t2).records.getD 1 []) "error"
        = some f.msg ∧
    (range_run rid nm extra (some f) t0 t1 t2).raised = some f := by
  rcases f with ⟨ty, msg, isE⟩
  cases isE
  · exact Bool.noConfusion hf
  · refine ⟨rfl, rfl, rfl, ?_, rfl⟩
    simp [range_run, recExtraGet, recGet_log_event_extra, dictTruthy_dictSet,
      dictGet_dictSet_self, List.getD_cons_succ, List.getD_cons_zero]

/-- C2 amended, witness at a concrete input. -/
theorem C2_amended_error_triple_witness :
    ((range_run "w2" "n2" none
        (some { ty := "ValueError", msg := "boom", isException := true })
        0 1 2).records.map (fun r => recGet r "event_type"))
        = [some (JVal.str "start"), some (JVal.str "error"), some (JVal.str "end")] ∧
    ((range_run "w2" "n2" none
        (some { ty := "ValueError", msg := "boom", isException := true })
        0 1 2).records.map (fun r => recGet r "request_id"))
        = [some (JVal.str "w2"), some (JVal.str "w2"), some (JVal.str "w2")] ∧
    ((range_run "w2" "n2" none
        (some { ty := "ValueError", msg := "boom", isException := true })
        0 1 2).records.map (fun r => recGet r "event_name"))
        = [some (JVal.str "n2"), some (JVal.str "n2"), some (JVal.str "n2")] ∧
    recExtraGet ((range_run "w2" "n2" none
        (some { ty := "ValueError", msg := "boom", isException := true })
        0 1 2).records.getD 1 []) "error" = some "boom" ∧
    (range_run "w2" "n2" none
        (some { ty := "ValueError", msg := "boom", isException := true })
        0 1 2).raised = some { ty := "ValueError", msg := "boom", isException := true } :=
  C2_amended_error_triple "w2" "n2" none
    { ty := "ValueError", msg := "boom", isException := true } rfl 0 1 2

/-- C3 counterexample: with a supplied non-empty `extra_data` and a
raising block, the `end` record does carry the injected `error` key,
because `error_extra = extra_data or \x7b\x7d` aliases the caller dict and
line 81 mutates it before the `finally` block emits the `end` record. -/
theorem C3_counterexample :
    recGet ((range_run "r3" "op3" (some [("k", "v")])
        (some { ty := "ValueError", msg := "boom", isException := true })
        0 1 2).records.getD 2 []) "event_type" = some (JVal.str "end") ∧
    recExtraGet ((range_run "r3" "op3" (some [("k", "v")])
        (some { ty := "ValueError", msg := "boom", isException := true })
        0 1 2).records.getD 2 []) "error" = some "boom" :=
  ⟨rfl, rfl⟩

/-- C3 amended: when a non-empty `extra_data` mapping is supplied and the
wrapped block raises an instance of `Exception`, the `end` record is
built from the same mapping object mutated by the error injection: its
`extra_data` equals the original mapping with the added `error` key, and
that key holds the string form of the fault. -/
theorem C3_amended_end_record_mutated (rid nm : String) (l : PyDict) (hl : l ≠ [])
    (f : Fault) (hf : f.isException = true) (t0 t1 t2 : ℚ) :
    recGet ((range_run rid nm (some l) (some f) t0 t1 t2).records.getD 2 []) "event_type"
        = some (JVal.str "end") ∧
    recGet ((range_run rid nm (some l) (some f) t0 t1 t2).records.getD 2 []) "extra_data"
        = some (JVal.dict (dictSet l "error" f.msg)) ∧
    recExtraGet ((range_run rid nm (some l) (some f) t0 t1 t2).records.getD 2 []) "error"
        = some f.msg ∧
    (range_run rid nm (some l) (some f) t0 t1 t2).callerExtra
        = some (dictSet l "error" f.msg) := by
  rcases f with ⟨ty, msg, isE⟩
  cases isE
  · exact Bool.noConfusion hf
  · have hT : dictTruthy (some l) = true := dictTruthy_of_ne_nil l hl
    refine ⟨?_, ?_, ?_, ?_⟩ <;>
      simp [range_run, hT, recExtraGet, recGet_log_event_extra, dictTruthy_dictSet,
        dictGet_dictSet_self, pyOrEmpty, List.getD_cons_succ, List.getD_cons_zero]

/-- C3 amended, witness at a concrete input. -/
theorem C3_amended_end_record_mutated_witness :
    recGet ((range_run "w3" "n3" (some [("k3", "v3")])
        (some { ty := "TypeError", msg := "bad", isException := true })
        0 1 2).records.getD 2 []) "event_type" = some (JVal.str "end") ∧
    recGet ((range_run "w3" "n3" (some [("k3", "v3")])
        (some { ty := "TypeError", msg := "bad", isException := true })
        0 1 2).records.getD 2 []) "extra_data"
        = some (JVal.dict (dictSet [("k3", "v3")] "error" "bad")) ∧
    recExtraGet ((range_run "w3" "n3" (some [("k3", "v3")])
        (some { ty := "TypeError", msg := "bad", isException := true })
        0 1 2).records.getD 2 []) "error" = some "bad" ∧
    (range_run "w3" "n3" (some [("k3", "v3")])
        (some { ty := "TypeError", msg := "bad", isException := true })
        0 1 2).callerExtra = some (dictSet [("k3", "v3")] "error" "bad") :=
  C3_amended_end_record_mutated "w3" "n3" [("k3", "v3")] (by decide)
    { ty := "TypeError", msg := "bad", isException := true } rfl 0 1 2

/-- C4 counterexample: a fault that is not an instance of `Exception`
(here a `SystemExit`) produces no error record at all: the emitted
records are start then end, and the supplied mapping is not touched. -/
theorem C4_counterexample :
    ((range_run "r4" "op4" (some [("k4", "v4")])
        (some { ty := "SystemExit", msg := "0", isException := false })
        3 4 5).records.map (fun r => recGet r "event_type"))
      = [some (JVal.str "start"), some (JVal.str "end")] ∧
    (range_run "r4" "op4" (some [("k4", "v4")])
        (some { ty := "SystemExit", msg := "0", isException := false })
        3 4 5).callerExtra = some [("k4", "v4")] :=
  ⟨rfl, rfl⟩

/-- C4 amended: for every fault that is an instance of `Exception` raised
by the wrapped block, an error record is emitted strictly before the end
record, with `extra_data` equal to the original mapping (or an empty
mapping when none was supplied) plus the added `error` key holding the
string form of the fault, and the fault is re-raised unchanged. -/
theorem C4_amended_error_record_on_exception (rid nm : String) (extra : Option PyDict)
    (f : Fault) (hf : f.isException = true) (t0 t1 t2 : ℚ) :
    (range_run rid nm extra (some f) t0 t1 t2).records.length = 3 ∧
    recGet ((range_run rid nm extra (some f) t0 t1 t2).records.getD 1 []) "event_type"
        = some (JVal.str "error") ∧
    recGet ((range_run rid nm extra (some f) t0 t1 t2).records.getD 2 []) "event_type"
        = some (JVal.str "end") ∧
    recGet ((range_run rid nm extra (some f) t0 t1 t2).records.getD 1 []) "extra_data"
        = some (JVal.dict (dictSet (pyOrEmpty extra) "error" f.msg)) ∧
    (range_run rid nm extra (some f) t0 t1 t2).raised = some f := by
  rcases f with ⟨ty, msg, isE⟩
  cases isE
  · exact Bool.noConfusion hf
  · refine ⟨rfl, rfl, rfl, ?_, rfl⟩
    simp [range_run, recGet_log_event_extra, dictTruthy_dictSet,
      List.getD_cons_succ, List.getD_cons_zero]

/-- C4 amended, witness at a concrete input. -/
theorem C4_amended_error_record_on_exception_witness :
    (range_run "w4" "n4" none
        (some { ty := "RuntimeError", msg := "err4", isException := true })
        0 1 2).records.length = 3 ∧
    recGet ((range_run "w4" "n4" none
        (some { ty := "RuntimeError", msg := "err4", isException := true })
        0 1 2).records.getD 1 []) "event_type" = some (JVal.str "error") ∧
    recGet ((range_run "w4" "n4" none
        (some { ty := "RuntimeError", msg := "err4", isException := true })
        0 1 2).records.getD 2 []) "event_type" = some (JVal.str "end") ∧
    recGet ((range_run "w4" "n4" none
        (some { ty := "RuntimeError", msg := "err4", isException := true })
        0 1 2).records.getD 1 []) "extra_data"
        = some (JVal.dict (dictSet (pyOrEmpty none) "error" "err4")) ∧
    (range_run "w4" "n4" none
        (some { ty := "RuntimeError", msg := "err4", isException := true })
        0 1 2).raised = some { ty := "RuntimeError", msg := "err4", isException := true } :=
  C4_amended_error_record_on_exception "w4" "n4" none
    { ty := "RuntimeError", msg := "err4", isException := true } rfl 0 1 2

/-- C9 counterexample: the claim quantifies over every supplied mapping,
but a supplied empty dict is falsy, so `extra_data or \x7b\x7d` yields a
fresh dict and the caller object is left without the `error` key even
though the block raised. -/
theorem C9_counterexample :
    (range_run "r9" "op9" (some [])
        (some { ty := "ValueError", msg := "oops", isException := true })
        0 1 2).callerExtra = some [] ∧
    (range_run "r9" "op9" (some [])
        (some { ty := "ValueError", msg := "oops", isException := true })
        0 1 2).raised = some { ty := "ValueError", msg := "oops", isException := true } :=
  ⟨rfl, rfl⟩

/-- C9 amended: when a non-empty `extra_data` mapping is supplied and the
wrapped block raises an instance of `Exception`, the caller mapping
itself is mutated in place: after `range` re-raises, it contains the
added `error` key holding the string form of the fault. -/
theorem C9_amended_caller_mutation (rid nm : String) (l : PyDict) (hl : l ≠ [])
    (f : Fault) (hf : f.isException = true) (t0 t1 t2 : ℚ) :
    (range_run rid nm (some l) (some f) t0 t1 t2).callerExtra
        = some (dictSet l "error" f.msg) ∧
    dictGet (dictSet l "error" f.msg) "error" = some f.msg ∧
    (range_run rid nm (some l) (some f) t0 t1 t2).raised = some f := by
  rcases f with ⟨ty, msg, isE⟩
  cases isE
  · exact Bool.noConfusion hf
  · have hT : dictTruthy (some l) = true := dictTruthy_of_ne_nil l hl
    exact ⟨by simp [range_run, hT, pyOrEmpty], dictGet_dictSet_self l "error" msg, rfl⟩

/-- C9 amended, witness at a concrete input. -/
theorem C9_amended_caller_mutation_witness :
    (range_run "w9" "n9" (some [("a", "b")])
        (some { ty := "KeyError", msg := "missing", isException := true })
        0 1 2).callerExtra = some (dictSet [("a", "b")] "error" "missing") ∧
    dictGet (dictSet [("a", "b")] "error" "missing") "error" = some "missing" ∧
    (range_run "w9" "n9" (some [("a", "b")])
        (some { ty := "KeyError", msg := "missing", isException := true })
        0 1 2).raised = some { ty := "KeyError", msg := "missing", isException := true } :=
  C9_amended_caller_mutation "w9" "n9" [("a", "b")] (by decide)
    { ty := "KeyError", msg := "missing", isException := true } rfl 0 1 2

theorem reconfigure_some_none_state (ctx : EventContext) (ls : LoggingState)
    (newSink : String) (hs : newSink ≠ "") (href : ctx.loggerRef = ctx.logger_name) :
    reconfigure ctx ls (some newSink) none =
      ({ log_file := newSink, logger_name := ctx.logger_name, inited := true,
         loggerRef := ctx.logger_name },
       setLoggerState
         (setLoggerState ls ctx.logger_name
           { getLoggerState ls ctx.logger_name with handlers := [] })
         ctx.logger_name
         { handlers := [{ sink := newSink }], level := 20, propagate := false }) := by
  simp [reconfigure, setup_logger, hs, href, getLoggerState_setLoggerState_self]

theorem setup_logger_existing_state (ctx : EventContext) (ls : LoggingState)
    (hinit : ctx.inited = false)
    (hne : (getLoggerState ls ctx.logger_name).handlers ≠ []) :
    setup_logger ctx ls =
      ({ ctx with inited := true, loggerRef := ctx.logger_name },
       setLoggerState ls ctx.logger_name
         { getLoggerState ls ctx.logger_name with level := 20 }) := by
  have hE : (getLoggerState ls ctx.logger_name).handlers.isEmpty = false := by
    cases h : (getLoggerState ls ctx.logger_name).handlers with
    | nil => exact absurd h hne
    | cons a l => rfl
  simp [setup_logger, hinit, hE]

/-- C7: `reconfigure(new_sink)` removes every handler bound to the channel
and re-runs construction with the updated sink, absent fields retaining
their prior values; afterwards exactly one handler (for the new sink) is
bound, every subsequent `mark` or `range` emission appends its records to
the new sink and appends nothing to any other path (in particular the old
sink), and repeated reconfigure calls leave no duplicate handlers. -/
theorem C7_reconfigure_replaces_sink (ctx : EventContext) (ls : LoggingState)
    (newSink : String) (hs : newSink ≠ "") (href : ctx.loggerRef = ctx.logger_name) :
    (reconfigure ctx ls (some newSink) none).1.log_file = newSink ∧
    (reconfigure ctx ls (some newSink) none).1.logger_name = ctx.logger_name ∧
    (reconfigure ctx ls none none).1.log_file = ctx.log_file ∧
    (reconfigure ctx ls none none).1.logger_name = ctx.logger_name ∧
    (getLoggerState (reconfigure ctx ls (some newSink) none).2
        (reconfigure ctx ls (some newSink) none).1.loggerRef).handlers
      = [{ sink := newSink }] ∧
    (∀ sinks rid nm x t,
      sinkLines (mark_emit (reconfigure ctx ls (some newSink) none).1
          (reconfigure ctx ls (some newSink) none).2 sinks rid nm x t) newSink
        = sinkLines sinks newSink ++ [mark_run rid nm x t]) ∧
    (∀ sinks rid nm x t p, p ≠ newSink →
      sinkLines (mark_emit (reconfigure ctx ls (some newSink) none).1
          (reconfigure ctx ls (some newSink) none).2 sinks rid nm x t) p
        = sinkLines sinks p) ∧
    (∀ sinks rid nm x fault t0 t1 t2,
      sinkLines (range_emit (reconfigure ctx ls (some newSink) none).1
          (reconfigure ctx ls (some newSink) none).2 sinks rid nm x fault t0 t1 t2) newSink
        = sinkLines sinks newSink ++ (range_run rid nm x fault t0 t1 t2).records) ∧
    (∀ sinks rid nm x fault t0 t1 t2 p, p ≠ newSink →
      sinkLines (range_emit (reconfigure ctx ls (some newSink) none).1
          (reconfigure ctx ls (some newSink) none).2 sinks rid nm x fault t0 t1 t2) p
        = sinkLines sinks p) := by
  rw [reconfigure_some_none_state ctx ls newSink hs href]
  refine ⟨rfl, rfl, rfl, rfl, ?_, ?_, ?_, ?_, ?_⟩
  · simp [getLoggerState_setLoggerState_self]
  · intro sinks rid nm x t
    exact sinkLines_emitAll_single _ ctx.logger_name newSink [mark_run rid nm x t]
      (by simp [getLoggerState_setLoggerState_self])
      (by simp [getLoggerState_setLoggerState_self]) sinks
  · intro sinks rid nm x t p hp
    refine sinkLines_emitAll_ne _ ctx.logger_name [mark_run rid nm x t] p ?_ sinks
    simp only [getLoggerState_setLoggerState_self]
    intro h hh
    simp only [List.mem_singleton] at hh
    subst hh
    exact fun hq => hp hq.symm
  · intro sinks rid nm x fault t0 t1 t2
    exact sinkLines_emitAll_single _ ctx.logger_name newSink
      (range_run rid nm x fault t0 t1 t2).records
      (by simp [getLoggerState_setLoggerState_self])
      (by simp [getLoggerState_setLoggerState_self]) sinks
  · intro sinks rid nm x fault t0 t1 t2 p hp
    refine sinkLines_emitAll_ne _ ctx.logger_name (range_run rid nm x fault t0 t1 t2).records p
      ?_ sinks
    simp only [getLoggerState_setLoggerState_self]
    intro h hh
    simp only [List.mem_singleton] at hh
    subst hh
    exact fun hq => hp hq.symm


/-- Concrete recorder context used by the C7 witness. -/
def wCtx7 : EventContext :=
  { log_file := "old.log", logger_name := "ch7", inited := true, loggerRef := "ch7" }

/-- C7, witness at a concrete input. -/
theorem C7_reconfigure_replaces_sink_witness :
    (reconfigure wCtx7 [] (some "new.log") none).1.log_file = "new.log" ∧
    (getLoggerState (reconfigure wCtx7 [] (some "new.log") none).2
        (reconfigure wCtx7 [] (some "new.log") none).1.loggerRef).handlers
      = [{ sink := "new.log" }] ∧
    sinkLines (mark_emit (reconfigure wCtx7 [] (some "new.log") none).1
        (reconfigure wCtx7 [] (some "new.log") none).2 [] "wr" "wn" none 0) "new.log"
      = sinkLines [] "new.log" ++ [mark_run "wr" "wn" none 0] ∧
    sinkLines (mark_emit (reconfigure wCtx7 [] (some "new.log") none).1
        (reconfigure wCtx7 [] (some "new.log") none).2 [] "wr" "wn" none 0) "old.log"
      = sinkLines [] "old.log" := by
  have h := C7_reconfigure_replaces_sink wCtx7 [] "new.log" (by decide) rfl
  exact ⟨h.1, h.2.2.2.2.1, h.2.2.2.2.2.1 [] "wr" "wn" none 0,
    h.2.2.2.2.2.2.1 [] "wr" "wn" none 0 "old.log" (by decide)⟩

/-- C8: `get_event_logger` is idempotent on the process-wide singleton:
with no stored recorder it constructs one from the given arguments and
stores it; with a stored recorder it returns that same recorder, ignores
both arguments entirely and changes no state. -/
theorem C8_get_event_logger_idempotent (ls ls2 : LoggingState) (f1 n1 f2 n2 : String)
    (ctx : EventContext) :
    (get_event_logger none ls f1 n1).1.log_file = f1 ∧
    (get_event_logger none ls f1 n1).1.logger_name = n1 ∧
    (get_event_logger none ls f1 n1).2.1 = some (get_event_logger none ls f1 n1).1 ∧
    get_event_logger (some ctx) ls2 f2 n2 = (ctx, some ctx, ls2) :=
  ⟨rfl, rfl, rfl, rfl⟩

/-- C10: when the logger under the channel identifier already has at
least one handler, construction leaves the handler list and the
propagate flag untouched, so the supplied sink path is not bound:
subsequent emissions append nothing to any path outside the previously
bound sinks, and with a single previously bound handler they continue to
append to that handler sink. -/
theorem C10_existing_handlers_untouched (ctx : EventContext) (ls : LoggingState)
    (hinit : ctx.inited = false)
    (hne : (getLoggerState ls ctx.logger_name).handlers ≠ []) :
    (getLoggerState (setup_logger ctx ls).2 ctx.logger_name).handlers
        = (getLoggerState ls ctx.logger_name).handlers ∧
    (getLoggerState (setup_logger ctx ls).2 ctx.logger_name).propagate
        = (getLoggerState ls ctx.logger_name).propagate ∧
    (setup_logger ctx ls).1.loggerRef = ctx.logger_name ∧
    (∀ sinks rid nm x t p,
        (∀ h ∈ (getLoggerState ls ctx.logger_name).handlers, h.sink ≠ p) →
        sinkLines (mark_emit (setup_logger ctx ls).1 (setup_logger ctx ls).2
            sinks rid nm x t) p
          = sinkLines sinks p) ∧
    (∀ h0 : Handler, (getLoggerState ls ctx.logger_name).handlers = [h0] →
        ∀ sinks rid nm x t,
        sinkLines (mark_emit (setup_logger ctx ls).1 (setup_logger ctx ls).2
            sinks rid nm x t) h0.sink
          = sinkLines sinks h0.sink ++ [mark_run rid nm x t]) := by
  rw [setup_logger_existing_state ctx ls hinit hne]
  refine ⟨?_, ?_, rfl, ?_, ?_⟩
  · simp [getLoggerState_setLoggerState_self]
  · simp [getLoggerState_setLoggerState_self]
  · intro sinks rid nm x t p hp
    refine sinkLines_emitAll_ne _ ctx.logger_name [mark_run rid nm x t] p ?_ sinks
    simp only [getLoggerState_setLoggerState_self]
    exact hp
  · intro h0 hh sinks rid nm x t
    exact sinkLines_emitAll_single _ ctx.logger_name h0.sink [mark_run rid nm x t]
      (by simp [getLoggerState_setLoggerState_self, hh])
      (by simp [getLoggerState_setLoggerState_self]) sinks

/-- Concrete recorder context used by the C10 witness. -/
def wCtx10 : EventContext :=
  { log_file := "fresh.log", logger_name := "chX", inited := false, loggerRef := "chX" }

/-- Concrete logging state used by the C10 witness: the channel already
has one handler bound to a prior sink. -/
def wLs10 : LoggingState :=
  [("chX", { handlers := [{ sink := "prior.log" }], level := 20, propagate := true })]

/-- C10, witness at a concrete input. -/
theorem C10_existing_handlers_untouched_witness :
    (getLoggerState (setup_logger wCtx10 wLs10).2 "chX").handlers
      = (getLoggerState wLs10 "chX").handlers ∧
    (getLoggerState (setup_logger wCtx10 wLs10).2 "chX").propagate
      = (getLoggerState wLs10 "chX").propagate ∧
    sinkLines (mark_emit (setup_logger wCtx10 wLs10).1 (setup_logger wCtx10 wLs10).2
        [] "wr" "wn" none 0) "fresh.log"
      = sinkLines [] "fresh.log" ∧
    sinkLines (mark_emit (setup_logger wCtx10 wLs10).1 (setup_logger wCtx10 wLs10).2
        [] "wr" "wn" none 0) (Handler.sink { sink := "prior.log" })
      = sinkLines [] (Handler.sink { sink := "prior.log" }) ++ [mark_run "wr" "wn" none 0] := by
  have h := C10_existing_handlers_untouched wCtx10 wLs10 rfl (by decide)
  exact ⟨h.1, h.2.1, h.2.2.2.1 [] "wr" "wn" none 0 "fresh.log" (by decide),
    h.2.2.2.2 { sink := "prior.log" } (by decide) [] "wr" "wn" none 0⟩
